import Mathlib

/-!
Shallow embedding of the AI-Security-Scanner deep analyzer
(`src/python/deep_analyzer.py`) and proofs about it.

The analyzer scans per-URL records (page content, HTTP headers,
pre-existing issue lists), emits findings via a fixed pattern registry,
generates remediation recommendations, and aggregates a severity tally,
a bounded risk score, and a discrete risk level.

Python's `re` matching (case-insensitive, leftmost, backtracking with
greedy repetition, `finditer` yielding non-overlapping matches) is
embedded as a fuelled continuation-passing matcher over `List Char`.
-/

namespace DeepAnalyzer

/-! ### Character helpers (ASCII semantics of the patterns in use) -/

/-- Case folding as Python's lowercasing acts on the ASCII characters the
patterns use; this is exactly core's `Char.toLower`. -/
def lc (c : Char) : Char := Char.toLower c

/-- `\w` on ASCII: letters, digits, underscore. -/
def isWordCh (c : Char) : Bool :=
  decide ((97 ≤ c.toNat ∧ c.toNat ≤ 122) ∨ (65 ≤ c.toNat ∧ c.toNat ≤ 90) ∨
    (48 ≤ c.toNat ∧ c.toNat ≤ 57) ∨ c.toNat = 95)

/-- `\s` on ASCII: space, tab, newline, carriage return, vertical tab, form feed. -/
def isSpaceCh (c : Char) : Bool :=
  decide (c.toNat = 32 ∨ c.toNat = 9 ∨ c.toNat = 10 ∨ c.toNat = 13 ∨
    c.toNat = 11 ∨ c.toNat = 12)

/-- The single-quote character, `chr(39)`. -/
def sq : Char := Char.ofNat 39

/-! ### Regex abstract syntax -/

/-- Regular-expression syntax covering the constructs appearing in the
analyzer's five patterns.  Literal characters are stored lowercase and
matched case-insensitively; classes receive the case-folded input char. -/
inductive RE : Type where
  | eps : RE
  | chr : Char → RE
  | cls : (Char → Bool) → RE
  | seq : RE → RE → RE
  | alt : RE → RE → RE
  | star : RE → RE
  | wb : RE

/-- Is the character at index `i` (if any) a word character? -/
def wordAt (s : List Char) (i : Nat) : Bool :=
  match s.get? i with
  | some c => isWordCh c
  | none => false

/-- Python `\b`: word-ness differs between the previous character and the
current one (out-of-bounds counts as non-word). -/
def atBoundary (s : List Char) (i : Nat) : Bool :=
  (if i = 0 then false else wordAt s (i - 1)) != wordAt s i

/-! ### Backtracking matcher (Python `re` semantics) -/

/-- Fuelled continuation-passing backtracking matcher.  `reMatch fuel r s i k`
attempts to match `r` in `s` starting at index `i`; on each candidate end
index `j` it calls the continuation `k j`, backtracking when it returns
`none`.  Alternation prefers the left branch and `star` is greedy (more
iterations first, each required to consume input), as in Python `re`. -/
def reMatch : Nat → RE → List Char → Nat → (Nat → Option Nat) → Option Nat
  | 0, _, _, _, _ => none
  | _ + 1, .eps, _, i, k => k i
  | _ + 1, .chr c, s, i, k =>
    match s.get? i with
    | some d => if lc d = c then k (i + 1) else none
    | none => none
  | _ + 1, .cls p, s, i, k =>
    match s.get? i with
    | some d => if p (lc d) then k (i + 1) else none
    | none => none
  | fuel + 1, .seq a b, s, i, k => reMatch fuel a s i (fun j => reMatch fuel b s j k)
  | fuel + 1, .alt a b, s, i, k =>
    match reMatch fuel a s i k with
    | some e => some e
    | none => reMatch fuel b s i k
  | fuel + 1, .star a, s, i, k =>
    match reMatch fuel a s i (fun j => if i < j then reMatch fuel (.star a) s j k else none) with
    | some e => some e
    | none => k i
  | _ + 1, .wb, s, i, k => if atBoundary s i then k i else none

/-- Structural size of a regex, used to compute a sufficient fuel bound. -/
def reSize : RE → Nat
  | .eps => 1
  | .chr _ => 1
  | .cls _ => 1
  | .seq a b => reSize a + reSize b + 1
  | .alt a b => reSize a + reSize b + 1
  | .star a => reSize a + 1
  | .wb => 1

/-- Fuel bound for matching `r` against `s`: generous product of pattern
size and input length (the call depth of the matcher is linear in both). -/
def matchFuel (r : RE) (s : List Char) : Nat := (reSize r + 2) * (s.length + 2)

/-- Scan forward from index `i` looking for the leftmost match, as Python's
`re.search` does; returns the `(start, end)` span. -/
def searchAux : Nat → RE → List Char → Nat → Option (Nat × Nat)
  | 0, _, _, _ => none
  | fuel + 1, r, s, i =>
    if i ≤ s.length then
      match reMatch (matchFuel r s) r s i some with
      | some e => some (i, e)
      | none => searchAux fuel r s (i + 1)
    else none

/-- Leftmost match of `r` in `s` starting at or after index `i`. -/
def searchFrom (r : RE) (s : List Char) (i : Nat) : Option (Nat × Nat) :=
  searchAux (s.length + 1 - i) r s i

/-- Iterated non-overlapping search: after a match ending at `e` the next
search resumes at `e` (or `e + 1` if the match was empty), as `re.finditer`. -/
def finditerAux : Nat → RE → List Char → Nat → List (Nat × Nat)
  | 0, _, _, _ => []
  | fuel + 1, r, s, i =>
    match searchFrom r s i with
    | none => []
    | some (b, e) => (b, e) :: finditerAux fuel r s (if b < e then e else e + 1)

/-- All non-overlapping matches of `r` in `s`, leftmost-first, as
`re.finditer(pattern, s, re.IGNORECASE)`. -/
def finditer (r : RE) (s : List Char) : List (Nat × Nat) :=
  finditerAux (s.length + 1) r s 0

/-! ### The five registry patterns -/

/-- A literal word, one `chr` node per character. -/
def lit (w : String) : RE := w.data.foldr (fun c r => RE.seq (RE.chr c) r) RE.eps

/-- Chain a list of regexes in sequence. -/
def seqL (l : List RE) : RE := l.foldr RE.seq RE.eps

/-- Alternation over a non-empty list, preferring earlier entries. -/
def altL : List RE → RE
  | [] => RE.eps
  | [r] => r
  | r :: rest => RE.alt r (altL rest)

/-- `?` (greedy option). -/
def opt (r : RE) : RE := RE.alt r RE.eps

/-- `+` (greedy one-or-more). -/
def plus (r : RE) : RE := RE.seq r (RE.star r)

/-- `.` — any character except newline. -/
def dotAny : RE := RE.cls (fun c => !(c = Char.ofNat 10))

/-- `\s*`-style whitespace class. -/
def spc : RE := RE.cls isSpaceCh

/-- `\w` class. -/
def wch : RE := RE.cls isWordCh

/-- `[^>]` class. -/
def notGt : RE := RE.cls (fun c => !(c = Char.ofNat 62))

/-- `[_\-]` class. -/
def usDash : RE := RE.cls (fun c => c = Char.ofNat 95 || c = Char.ofNat 45)

/-- `(\b(select|update|delete|insert|drop|alter)\b.*\b(from|table|where|set)\b)|(\'\s*or\s*\'\s*=\s*\')|(\'\s*;\s*--\s*)` -/
def sqlRe : RE :=
  altL
    [ seqL [RE.wb,
        altL [lit "select", lit "update", lit "delete", lit "insert", lit "drop", lit "alter"],
        RE.wb, RE.star dotAny, RE.wb,
        altL [lit "from", lit "table", lit "where", lit "set"], RE.wb],
      seqL [RE.chr sq, RE.star spc, lit "or", RE.star spc, RE.chr sq,
        RE.star spc, RE.chr (Char.ofNat 61), RE.star spc, RE.chr sq],
      seqL [RE.chr sq, RE.star spc, RE.chr (Char.ofNat 59), RE.star spc, lit "--", RE.star spc] ]

/-- `(<script[^>]*>|javascript:|\bon\w+\s*=|\beval\s*\()` -/
def xssRe : RE :=
  altL
    [ seqL [lit "<script", RE.star notGt, RE.chr (Char.ofNat 62)],
      lit "javascript:",
      seqL [RE.wb, lit "on", plus wch, RE.star spc, RE.chr (Char.ofNat 61)],
      seqL [RE.wb, lit "eval", RE.star spc, RE.chr (Char.ofNat 40)] ]

/-- `(password|passwd|pwd|secret|api[_\-]?key|access[_\-]?token|auth[_\-]?token)` -/
def sensRe : RE :=
  altL
    [ lit "password", lit "passwd", lit "pwd", lit "secret",
      seqL [lit "api", opt usDash, lit "key"],
      seqL [lit "access", opt usDash, lit "token"],
      seqL [lit "auth", opt usDash, lit "token"] ]

/-- `(\.\./|\.\.\\|/etc/passwd|/etc/shadow|c:\\windows\\system32)` -/
def pathRe : RE :=
  altL
    [ lit "../", lit "..\\", lit "/etc/passwd", lit "/etc/shadow",
      lit "c:\\windows\\system32" ]

/-- `(url=|redirect=|return=|next=|redir=|r=|destination=)` -/
def redirRe : RE :=
  altL
    [ lit "url=", lit "redirect=", lit "return=", lit "next=",
      lit "redir=", lit "r=", lit "destination=" ]

/-- `self.patterns`, in Python dict insertion order. -/
def patternList : List (String × RE) :=
  [ ("sql_injection", sqlRe),
    ("xss_vulnerability", xssRe),
    ("sensitive_data", sensRe),
    ("path_traversal", pathRe),
    ("open_redirect", redirRe) ]

/-- `self.severity_mapping`. -/
def severityMapping : List (String × String) :=
  [ ("sql_injection", "critical"),
    ("xss_vulnerability", "high"),
    ("sensitive_data", "high"),
    ("path_traversal", "critical"),
    ("open_redirect", "medium") ]

/-- `self.severity_mapping.get(issue_type, 'medium')`. -/
def sevOf (kind : String) : String :=
  ((severityMapping.find? (fun p => p.1 == kind)).map Prod.snd).getD "medium"

/-! ### Findings and the content detector -/

/-- A finding/issue dict.  Each key of the dicts the analyzer reads or
writes is an optional field; a missing key is `none`. -/
structure Finding where
  id : Option String := none
  severity : Option String := none
  details : Option String := none
  context : Option String := none
  url : Option String := none
  position : Option Nat := none
deriving DecidableEq, Repr

/-- Python `str.strip()` on the ASCII whitespace the analyzer encounters. -/
def pyStrip (l : List Char) : List Char :=
  ((l.dropWhile isSpaceCh).reverse.dropWhile isSpaceCh).reverse

/-- `issue_type.replace("_", " ")` (the pattern is a single character). -/
def replUnderscore (s : String) : String :=
  String.mk (s.data.map (fun c => if c = Char.ofNat 95 then Char.ofNat 32 else c))

/-- `content[max(0, start - 30):min(len(content), end + 30)].strip()`,
with Python slicing by character index. -/
def mkContext (cs : List Char) (b e : Nat) : String :=
  String.mk (pyStrip ((cs.drop (b - 30)).take (min cs.length (e + 30) - (b - 30))))

/-- The dict appended by `analyze_content` for one match `(b, e)`. -/
def contentFinding (url kind sev : String) (cs : List Char) (m : Nat × Nat) : Finding :=
  { id := some ("deep_" ++ kind),
    severity := some sev,
    details := some ("Potential " ++ replUnderscore kind ++ " detected"),
    context := some (mkContext cs m.1 m.2),
    url := some url,
    position := some m.1 }

/-- `DeepSecurityAnalyzer.analyze_content`: for each registry pattern, in
order, emit one finding per `finditer` match. -/
def analyze_content (url content : String) : List Finding :=
  patternList.flatMap fun kp =>
    (finditer kp.2 content.data).map (contentFinding url kp.1 (sevOf kp.1) content.data)

/-! ### Header detector -/

/-- Python dict lookup on a string-keyed header mapping. -/
def lookupHeader (headers : List (String × String)) (key : String) : Option String :=
  (headers.find? (fun p => p.1 == key)).map Prod.snd

/-- Case-insensitive substring test: `needle in hay.lower()` with a
lowercase `needle`. -/
def containsTok (hay needle : String) : Bool :=
  (List.range (hay.data.length + 1)).any
    (fun i => needle.data.isPrefixOf ((hay.data.map lc).drop i))

/-- The insecure-cookie finding dict, context = the raw header value. -/
def cookieFinding (url v : String) : Finding :=
  { id := some "deep_insecure_cookie",
    severity := some "high",
    details := some "Cookies set without Secure or HttpOnly flags",
    context := some v,
    url := some url }

/-- The server-disclosure finding dict, context = the header value. -/
def serverFinding (url v : String) : Finding :=
  { id := some "deep_server_disclosure",
    severity := some "medium",
    details := some "Server header reveals software information",
    context := some v,
    url := some url }

/-- The insecure-cookie check of `analyze_headers`: fires when a
`set-cookie` header exists and its lowercased value lacks the token
`secure` or the token `httponly`. -/
def cookiePart (url : String) (headers : List (String × String)) : List Finding :=
  match lookupHeader headers "set-cookie" with
  | some v =>
    if !(containsTok v "secure") || !(containsTok v "httponly") then
      [cookieFinding url v]
    else []
  | none => []

/-- The server-disclosure check of `analyze_headers`: fires when a
`server` header exists with a non-empty value. -/
def serverPart (url : String) (headers : List (String × String)) : List Finding :=
  match lookupHeader headers "server" with
  | some v =>
    if v.length > 0 then
      [serverFinding url v]
    else []
  | none => []

/-- `DeepSecurityAnalyzer.analyze_headers`: insecure-cookie check then
server-disclosure check; neither finding carries a `position`. -/
def analyze_headers (url : String) (headers : List (String × String)) : List Finding :=
  cookiePart url headers ++ serverPart url headers

/-! ### Recommendation generator -/

/-- The 7 known finding ids with their remediation texts, in the fixed
priority order of `generate_recommendations`. -/
def knownRecs : List (String × String) :=
  [ ("deep_sql_injection",
      "Implement parameterized queries or prepared statements for all database operations. Never concatenate user input directly into SQL queries."),
    ("deep_xss_vulnerability",
      "Implement context-specific output encoding and use Content Security Policy (CSP) to mitigate XSS attacks. Consider using modern frameworks that automatically escape output."),
    ("deep_sensitive_data",
      "Remove sensitive data from client-side code. Store API keys and credentials securely using environment variables or a secure vault solution."),
    ("deep_path_traversal",
      "Validate and sanitize all file paths. Use whitelisting approaches and avoid passing user input directly to filesystem operations."),
    ("deep_open_redirect",
      "Implement a whitelist of allowed redirect destinations or use relative path redirects. Always validate redirect URLs against a list of allowed domains."),
    ("deep_insecure_cookie",
      "Set the Secure, HttpOnly, and SameSite flags on all cookies containing sensitive information. Consider implementing token-based authentication instead of cookie-based authentication."),
    ("deep_server_disclosure",
      "Configure your web server to remove or obfuscate the Server header to prevent information disclosure about your technology stack.") ]

/-- The if-chain of `generate_recommendations`: append the text of each
known id present in the observed id collection, in priority order. -/
def buildRecs (ids : List String) : List String :=
  (knownRecs.filter (fun p => ids.contains p.1)).map Prod.snd

/-- `DeepSecurityAnalyzer.generate_recommendations`:
`set(issue['id'] for issue in issues)` raises `KeyError` when an issue has
no `id`, so the whole call fails (`none`) in that case. -/
def generate_recommendations (issues : List Finding) : Option (List String) :=
  if issues.all (fun i => i.id.isSome) then
    some (buildRecs (issues.filterMap Finding.id))
  else none

/-! ### Aggregator / scorer -/

/-- A scan-input record (one element of the submitted batch). -/
structure Record where
  url : Option String := none
  content : Option String := none
  headers : Option (List (String × String)) := none
  issues : Option (List Finding) := none
deriving DecidableEq, Repr

/-- `result.get('url', '')`. -/
def urlOf (r : Record) : String := r.url.getD ""

/-- `severity_counts`, keyed by the four known severities. -/
structure SevCounts where
  critical : Nat
  high : Nat
  medium : Nat
  low : Nat
deriving DecidableEq, Repr

/-- `if severity in severity_counts: severity_counts[severity] += 1`. -/
def bumpSev (c : SevCounts) (sev : String) : SevCounts :=
  if sev = "critical" then { c with critical := c.critical + 1 }
  else if sev = "high" then { c with high := c.high + 1 }
  else if sev = "medium" then { c with medium := c.medium + 1 }
  else if sev = "low" then { c with low := c.low + 1 }
  else c

/-- The severity tally loop; a missing severity defaults to `'low'`
(`issue.get('severity', 'low')`). -/
def tally (issues : List Finding) : SevCounts :=
  issues.foldl (fun c i => bumpSev c (i.severity.getD "low")) ⟨0, 0, 0, 0⟩

/-- `min(100, critical*25 + high*10 + medium*5 + low*1)`. -/
def riskScore (c : SevCounts) : Nat :=
  min 100 (c.critical * 25 + c.high * 10 + c.medium * 5 + c.low * 1)

/-- The risk-level cascade. -/
def riskLevelOf (score : Nat) : String :=
  if score > 75 then "critical"
  else if score > 50 then "high"
  else if score > 25 then "medium"
  else "low"

/-- The per-record contribution to `all_issues`: pass-through issues, then
content findings (when `content` is present), then header findings (when
`headers` is present). -/
def recordFindings (r : Record) : List Finding :=
  (r.issues.getD []) ++
  (match r.content with
    | some c => analyze_content (urlOf r) c
    | none => []) ++
  (match r.headers with
    | some hs => analyze_headers (urlOf r) hs
    | none => [])

/-- One iteration of the extraction loop of `analyze_scan_results`:
record the url into the seen-url set, append the pass-through issues,
then the content findings (if `content` present), then the header
findings (if `headers` present). -/
def collectStep (acc : List Finding × Finset String) (r : Record) :
    List Finding × Finset String :=
  let url := urlOf r
  let urls := insert url acc.2
  let a1 := acc.1 ++ r.issues.getD []
  let a2 := match r.content with
    | some c => a1 ++ analyze_content url c
    | none => a1
  let a3 := match r.headers with
    | some hs => a2 ++ analyze_headers url hs
    | none => a2
  (a3, urls)

/-- The extraction loop of `analyze_scan_results`: accumulate `all_issues`
and the `all_urls` set over the batch in submission order. -/
def collect (results : List Record) : List Finding × Finset String :=
  results.foldl collectStep ([], ∅)

/-- The analysis report returned by `analyze_scan_results`. -/
structure Report where
  enhanced_issues : List Finding
  recommendations : List String
  risk_score : Nat
  risk_level : String
  severity_counts : SevCounts
  urls_analyzed : Nat
deriving DecidableEq, Repr

/-- `DeepSecurityAnalyzer.analyze_scan_results`.  The call fails (`none`)
exactly when `generate_recommendations` raises, i.e. when some
pass-through issue lacks an `id`. -/
def analyze_scan_results (results : List Record) : Option Report :=
  let acc := collect results
  match generate_recommendations acc.1 with
  | none => none
  | some recs =>
    let counts := tally acc.1
    let score := riskScore counts
    some
      { enhanced_issues := acc.1,
        recommendations := recs,
        risk_score := score,
        risk_level := riskLevelOf score,
        severity_counts := counts,
        urls_analyzed := acc.2.card }

/-! ### Character lemmas -/

theorem toNat_ofNat_valid {n : Nat} (h : n.isValidChar) : (Char.ofNat n).toNat = n := by
  rw [Char.ofNat, dif_pos h]
  rfl

theorem lc_toNat_of_upper {c : Char} (h : 65 ≤ c.toNat ∧ c.toNat ≤ 90) :
    (lc c).toNat = c.toNat + 32 := by
  rw [lc, Char.toLower, if_pos (by exact ⟨h.1, h.2⟩)]
  exact toNat_ofNat_valid (Or.inl (by omega))

theorem lc_eq_of_not_upper {c : Char} (h : ¬(65 ≤ c.toNat ∧ c.toNat ≤ 90)) : lc c = c := by
  rw [lc, Char.toLower, if_neg]
  intro hc
  exact h ⟨hc.1, hc.2⟩

theorem lc_idem (c : Char) : lc (lc c) = lc c := by
  by_cases h : 65 ≤ c.toNat ∧ c.toNat ≤ 90
  · have ht : (lc c).toNat = c.toNat + 32 := lc_toNat_of_upper h
    exact lc_eq_of_not_upper (by omega)
  · simp only [lc_eq_of_not_upper h]

theorem isWordCh_lc (c : Char) : isWordCh (lc c) = isWordCh c := by
  by_cases h : 65 ≤ c.toNat ∧ c.toNat ≤ 90
  · have ht : (lc c).toNat = c.toNat + 32 := lc_toNat_of_upper h
    simp only [isWordCh, ht]
    rw [decide_eq_decide]
    omega
  · rw [lc_eq_of_not_upper h]

/-! ### Matcher span lemmas -/

/-- Whenever the matcher succeeds, the success came from the continuation
applied at some index between the start index and the end of the input. -/
theorem reMatch_exists_k (fuel : Nat) : ∀ (r : RE) (s : List Char) (i : Nat)
    (k : Nat → Option Nat) (e : Nat), i ≤ s.length → reMatch fuel r s i k = some e →
    ∃ j, i ≤ j ∧ j ≤ s.length ∧ k j = some e := by
  induction fuel with
  | zero => intro r s i k e hi h; simp [reMatch] at h
  | succ fuel ih =>
    intro r s i k e hi h
    cases r with
    | eps =>
      simp only [reMatch] at h
      exact ⟨i, Nat.le_refl i, hi, h⟩
    | chr c =>
      simp only [reMatch] at h
      cases hs : s.get? i with
      | none =>
        simp only [hs] at h
        exact absurd h (by simp)
      | some d =>
        simp only [hs] at h
        have hlt : i < s.length := (List.get?_eq_some.mp hs).1
        split at h
        · exact ⟨i + 1, Nat.le_succ i, hlt, h⟩
        · exact absurd h (by simp)
    | cls p =>
      simp only [reMatch] at h
      cases hs : s.get? i with
      | none =>
        simp only [hs] at h
        exact absurd h (by simp)
      | some d =>
        simp only [hs] at h
        have hlt : i < s.length := (List.get?_eq_some.mp hs).1
        split at h
        · exact ⟨i + 1, Nat.le_succ i, hlt, h⟩
        · exact absurd h (by simp)
    | seq a b =>
      simp only [reMatch] at h
      obtain ⟨j, hij, hjl, hk⟩ := ih a s i _ e hi h
      obtain ⟨j2, hj2, hjl2, hk2⟩ := ih b s j k e hjl hk
      exact ⟨j2, Nat.le_trans hij hj2, hjl2, hk2⟩
    | alt a b =>
      simp only [reMatch] at h
      cases hm : reMatch fuel a s i k with
      | some e2 =>
        simp only [hm, Option.some.injEq] at h
        subst h
        exact ih a s i k e2 hi hm
      | none =>
        simp only [hm] at h
        exact ih b s i k e hi h
    | star a =>
      simp only [reMatch] at h
      cases hm : reMatch fuel a s i
          (fun j => if i < j then reMatch fuel (RE.star a) s j k else none) with
      | some e2 =>
        simp only [hm, Option.some.injEq] at h
        subst h
        obtain ⟨j, hij, hjl, hk⟩ := ih a s i _ e2 hi hm
        rw [if_pos] at hk
        · obtain ⟨j2, hj2, hjl2, hk2⟩ := ih (RE.star a) s j k e2 hjl hk
          exact ⟨j2, Nat.le_trans hij hj2, hjl2, hk2⟩
        · by_contra hlt
          rw [if_neg hlt] at hk
          exact absurd hk (by simp)
      | none =>
        simp only [hm] at h
        exact ⟨i, Nat.le_refl i, hi, h⟩
    | wb =>
      simp only [reMatch] at h
      split at h
      · exact ⟨i, Nat.le_refl i, hi, h⟩
      · exact absurd h (by simp)

/-- A successful search yields a well-formed span at or after the start
index. -/
theorem searchAux_bound (fuel : Nat) : ∀ (r : RE) (s : List Char) (i b e : Nat),
    searchAux fuel r s i = some (b, e) → i ≤ b ∧ b ≤ e ∧ e ≤ s.length := by
  induction fuel with
  | zero => intro r s i b e h; simp [searchAux] at h
  | succ fuel ih =>
    intro r s i b e h
    simp only [searchAux] at h
    split at h
    · cases hm : reMatch (matchFuel r s) r s i some with
      | some e2 =>
        simp only [hm, Option.some.injEq, Prod.mk.injEq] at h
        obtain ⟨j, hij, hjl, hk⟩ := reMatch_exists_k _ r s i some e2
          (by assumption) hm
        obtain rfl : j = e2 := by simpa using hk
        refine ⟨?_, ?_, ?_⟩ <;> omega
      | none =>
        simp only [hm] at h
        have := ih r s (i + 1) b e h
        exact ⟨by omega, this.2.1, this.2.2⟩
    · exact absurd h (by simp)

/-- `searchFrom` bound. -/
theorem searchFrom_bound {r : RE} {s : List Char} {i b e : Nat}
    (h : searchFrom r s i = some (b, e)) : i ≤ b ∧ b ≤ e ∧ e ≤ s.length :=
  searchAux_bound _ r s i b e h

/-- Every span produced by the finditer loop starts at or after the scan
position, is well formed, and the spans are pairwise non-overlapping in
increasing position order. -/
theorem finditerAux_spans (fuel : Nat) : ∀ (r : RE) (s : List Char) (pos : Nat),
    (∀ m ∈ finditerAux fuel r s pos, pos ≤ m.1 ∧ m.1 ≤ m.2 ∧ m.2 ≤ s.length) ∧
    List.Pairwise (fun a b : Nat × Nat => a.2 ≤ b.1) (finditerAux fuel r s pos) := by
  induction fuel with
  | zero => intro r s pos; simp [finditerAux]
  | succ fuel ih =>
    intro r s pos
    simp only [finditerAux]
    cases hm : searchFrom r s pos with
    | none => simp [hm]
    | some m =>
      obtain ⟨b, e⟩ := m
      simp only [hm]
      obtain ⟨hpb, hbe, hel⟩ := searchFrom_bound hm
      have tail := ih r s (if b < e then e else e + 1)
      have htpos : ∀ m ∈ finditerAux fuel r s (if b < e then e else e + 1), e ≤ m.1 := by
        intro m hmem
        have := (tail.1 m hmem).1
        split at this <;> omega
      constructor
      · intro m hmem
        rcases List.mem_cons.mp hmem with rfl | hmem
        · exact ⟨hpb, hbe, hel⟩
        · have h1 := tail.1 m hmem
          have h2 := htpos m hmem
          exact ⟨by omega, h1.2.1, h1.2.2⟩
      · exact List.Pairwise.cons (fun m hmem => htpos m hmem) tail.2

/-- `finditer` spans: well-formed, within bounds, non-overlapping, in
increasing order. -/
theorem finditer_spans (r : RE) (s : List Char) :
    (∀ m ∈ finditer r s, m.1 ≤ m.2 ∧ m.2 ≤ s.length) ∧
    List.Pairwise (fun a b : Nat × Nat => a.2 ≤ b.1) (finditer r s) := by
  have h := finditerAux_spans (s.length + 1) r s 0
  exact ⟨fun m hm => (h.1 m hm).2, h.2⟩

/-! ### Case-insensitivity of the matcher -/

theorem wordAt_map_lc (s : List Char) (i : Nat) : wordAt (s.map lc) i = wordAt s i := by
  simp only [wordAt, List.get?_map]
  cases s.get? i with
  | none => rfl
  | some d => simp [isWordCh_lc]

theorem atBoundary_map_lc (s : List Char) (i : Nat) :
    atBoundary (s.map lc) i = atBoundary s i := by
  simp only [atBoundary, wordAt_map_lc]

/-- The matcher only inspects input characters through the case folding
`lc`, so pre-folding the input changes nothing. -/
theorem reMatch_map_lc (fuel : Nat) : ∀ (r : RE) (s : List Char) (i : Nat)
    (k : Nat → Option Nat), reMatch fuel r (s.map lc) i k = reMatch fuel r s i k := by
  induction fuel with
  | zero => intro r s i k; simp [reMatch]
  | succ fuel ih =>
    intro r s i k
    cases r with
    | eps => simp only [reMatch]
    | chr c =>
      simp only [reMatch, List.get?_map]
      cases s.get? i with
      | none => rfl
      | some d => simp [lc_idem]
    | cls p =>
      simp only [reMatch, List.get?_map]
      cases s.get? i with
      | none => rfl
      | some d => simp [lc_idem]
    | seq a b =>
      simp only [reMatch]
      have hb : (fun j => reMatch fuel b (s.map lc) j k) =
          (fun j => reMatch fuel b s j k) := funext fun j => ih b s j k
      rw [hb, ih a]
    | alt a b =>
      simp only [reMatch]
      rw [ih a, ih b]
    | star a =>
      simp only [reMatch]
      have hb : (fun j => if i < j then reMatch fuel (RE.star a) (s.map lc) j k else none) =
          (fun j => if i < j then reMatch fuel (RE.star a) s j k else none) :=
        funext fun j => by rw [ih (RE.star a)]
      rw [hb, ih a]
    | wb =>
      simp only [reMatch, atBoundary_map_lc]

theorem matchFuel_map_lc (r : RE) (s : List Char) :
    matchFuel r (s.map lc) = matchFuel r s := by
  simp [matchFuel]

theorem searchAux_map_lc (fuel : Nat) : ∀ (r : RE) (s : List Char) (i : Nat),
    searchAux fuel r (s.map lc) i = searchAux fuel r s i := by
  induction fuel with
  | zero => intro r s i; simp [searchAux]
  | succ fuel ih =>
    intro r s i
    simp only [searchAux, List.length_map, matchFuel_map_lc, reMatch_map_lc, ih]

theorem searchFrom_map_lc (r : RE) (s : List Char) (i : Nat) :
    searchFrom r (s.map lc) i = searchFrom r s i := by
  simp only [searchFrom, List.length_map, searchAux_map_lc]

theorem finditerAux_map_lc (fuel : Nat) : ∀ (r : RE) (s : List Char) (i : Nat),
    finditerAux fuel r (s.map lc) i = finditerAux fuel r s i := by
  induction fuel with
  | zero => intro r s i; simp [finditerAux]
  | succ fuel ih =>
    intro r s i
    simp only [finditerAux, searchFrom_map_lc]
    cases searchFrom r s i with
    | none => rfl
    | some m => simp only [ih]

/-- Case-insensitivity: lowercasing the input does not change the match
spans of any pattern. -/
theorem finditer_map_lc (r : RE) (s : List Char) :
    finditer r (s.map lc) = finditer r s := by
  simp only [finditer, List.length_map, finditerAux_map_lc]

/-! ### Aggregation lemmas -/

theorem collectStep_eq (acc : List Finding × Finset String) (r : Record) :
    collectStep acc r = (acc.1 ++ recordFindings r, insert (urlOf r) acc.2) := by
  simp only [collectStep, recordFindings]
  cases r.content <;> cases r.headers <;> simp [List.append_assoc]

theorem foldl_collectStep (results : List Record) : ∀ (l : List Finding) (s : Finset String),
    results.foldl collectStep (l, s) =
      (l ++ results.flatMap recordFindings, s ∪ (results.map urlOf).toFinset) := by
  induction results with
  | nil => intro l s; simp
  | cons r rest ih =>
    intro l s
    simp only [List.foldl_cons, collectStep_eq, ih, List.flatMap_cons, List.map_cons,
      List.toFinset_cons, List.append_assoc, Finset.union_insert, Finset.insert_union]

theorem collect_eq (results : List Record) :
    collect results = (results.flatMap recordFindings, (results.map urlOf).toFinset) := by
  simp [collect, foldl_collectStep]

/-- Full characterisation of `analyze_scan_results`. -/
theorem analyze_eq (results : List Record) :
    analyze_scan_results results =
      (generate_recommendations (results.flatMap recordFindings)).map (fun recs =>
        { enhanced_issues := results.flatMap recordFindings,
          recommendations := recs,
          risk_score := riskScore (tally (results.flatMap recordFindings)),
          risk_level := riskLevelOf (riskScore (tally (results.flatMap recordFindings))),
          severity_counts := tally (results.flatMap recordFindings),
          urls_analyzed := ((results.map urlOf).toFinset).card }) := by
  simp only [analyze_scan_results, collect_eq]
  cases generate_recommendations (results.flatMap recordFindings) with
  | none => rfl
  | some recs => rfl

/-- Destructed characterisation when the analysis succeeds. -/
theorem analyze_some_spec {results : List Record} {rep : Report}
    (h : analyze_scan_results results = some rep) :
    rep.enhanced_issues = results.flatMap recordFindings ∧
    rep.severity_counts = tally (results.flatMap recordFindings) ∧
    rep.risk_score = riskScore rep.severity_counts ∧
    rep.risk_level = riskLevelOf rep.risk_score ∧
    rep.urls_analyzed = ((results.map urlOf).toFinset).card ∧
    generate_recommendations rep.enhanced_issues = some rep.recommendations := by
  rw [analyze_eq] at h
  cases hg : generate_recommendations (results.flatMap recordFindings) with
  | none => rw [hg] at h; exact absurd h (by simp)
  | some recs =>
    rw [hg] at h
    simp only [Option.map_some', Option.some.injEq] at h
    subst h
    exact ⟨rfl, rfl, rfl, rfl, rfl, hg⟩

/-! ### Severity tally lemmas -/

/-- Is a severity string one of the four known keys of `severity_counts`? -/
def knownSev (s : String) : Bool :=
  s == "critical" || s == "high" || s == "medium" || s == "low"

/-- Sum of the four counts. -/
def sumSC (c : SevCounts) : Nat := c.critical + c.high + c.medium + c.low

theorem sumSC_bumpSev (c : SevCounts) (s : String) :
    sumSC (bumpSev c s) = sumSC c + (if knownSev s then 1 else 0) := by
  simp only [bumpSev]
  split_ifs with h1 h2 h3 h4 <;>
    simp_all [knownSev, sumSC] <;> omega

theorem bumpSev_unknown (c : SevCounts) (s : String) (h : knownSev s = false) :
    bumpSev c s = c := by
  simp only [knownSev, Bool.or_eq_false_iff, beq_eq_false_iff_ne, ne_eq] at h
  obtain ⟨⟨⟨h1, h2⟩, h3⟩, h4⟩ := h
  simp [bumpSev, h1, h2, h3, h4]

theorem foldl_bump_sum (issues : List Finding) : ∀ c0 : SevCounts,
    sumSC (issues.foldl (fun c i => bumpSev c (i.severity.getD "low")) c0) =
      sumSC c0 + (issues.filter (fun i => knownSev (i.severity.getD "low"))).length := by
  induction issues with
  | nil => intro c0; simp
  | cons i rest ih =>
    intro c0
    simp only [List.foldl_cons, ih, sumSC_bumpSev, List.filter_cons]
    split <;> simp <;> omega

theorem sumSC_tally (issues : List Finding) :
    sumSC (tally issues) =
      (issues.filter (fun i => knownSev (i.severity.getD "low"))).length := by
  rw [tally, foldl_bump_sum]
  simp [sumSC]

/-! ### Recommendation lemmas -/

theorem contains_eq_of_mem_iff {ids1 ids2 : List String}
    (h : ∀ s, s ∈ ids1 ↔ s ∈ ids2) (x : String) :
    ids1.contains x = ids2.contains x := by
  rw [Bool.eq_iff_iff]
  simp only [List.contains_iff_exists_mem_beq]
  constructor
  · rintro ⟨b, hb, he⟩
    exact ⟨b, (h b).mp hb, he⟩
  · rintro ⟨b, hb, he⟩
    exact ⟨b, (h b).mpr hb, he⟩

theorem buildRecs_sublist (ids : List String) :
    (buildRecs ids).Sublist (knownRecs.map Prod.snd) :=
  List.Sublist.map Prod.snd (List.filter_sublist knownRecs)

theorem knownRecs_snd_nodup : (knownRecs.map Prod.snd).Nodup := by decide

theorem buildRecs_nodup (ids : List String) : (buildRecs ids).Nodup :=
  List.Nodup.sublist (buildRecs_sublist ids) knownRecs_snd_nodup

theorem buildRecs_unknown (ids : List String)
    (h : ∀ s ∈ ids, s ∉ knownRecs.map Prod.fst) : buildRecs ids = [] := by
  have hf : knownRecs.filter (fun p => ids.contains p.1) = [] := by
    rw [List.filter_eq_nil_iff]
    intro p hp hc
    have hmem : p.1 ∈ ids := by
      obtain ⟨b, hb, he⟩ := List.contains_iff_exists_mem_beq.mp hc
      obtain rfl : p.1 = b := by simpa using he
      exact hb
    exact h p.1 hmem (List.mem_map_of_mem Prod.fst hp)
  unfold buildRecs
  rw [hf]
  rfl

theorem buildRecs_congr {ids1 ids2 : List String} (h : ∀ s, s ∈ ids1 ↔ s ∈ ids2) :
    buildRecs ids1 = buildRecs ids2 := by
  unfold buildRecs
  rw [List.filter_congr (fun p _ => contains_eq_of_mem_iff h p.1)]

theorem gen_eq_some {issues : List Finding} {recs : List String}
    (h : generate_recommendations issues = some recs) :
    recs = buildRecs (issues.filterMap Finding.id) ∧ ∀ i ∈ issues, i.id.isSome := by
  unfold generate_recommendations at h
  split at h
  · refine ⟨by simpa using h.symm, ?_⟩
    intro i hi
    exact List.all_eq_true.mp (by assumption) i hi
  · exact absurd h (by simp)

theorem gen_perm {issues issues2 : List Finding} (hp : issues.Perm issues2) :
    generate_recommendations issues2 = generate_recommendations issues := by
  unfold generate_recommendations
  have hall : issues2.all (fun i => i.id.isSome) = issues.all (fun i => i.id.isSome) := by
    rw [Bool.eq_iff_iff]
    simp only [List.all_eq_true]
    exact ⟨fun h i hi => h i (hp.mem_iff.mp hi), fun h i hi => h i (hp.mem_iff.mpr hi)⟩
  rw [hall]
  split
  · rw [buildRecs_congr (fun s => ((hp.filterMap Finding.id).mem_iff (a := s)).symm)]
  · rfl

/-! ### Detector findings always carry an id -/

theorem analyze_content_id_isSome {url content : String} {f : Finding}
    (hf : f ∈ analyze_content url content) : f.id.isSome := by
  simp only [analyze_content, List.mem_flatMap, List.mem_map] at hf
  obtain ⟨kp, _, m, _, rfl⟩ := hf
  rfl

theorem analyze_headers_id_isSome {url : String} {hs : List (String × String)} {f : Finding}
    (hf : f ∈ analyze_headers url hs) : f.id.isSome := by
  simp only [analyze_headers, List.mem_append] at hf
  rcases hf with hf | hf
  · unfold cookiePart at hf
    split at hf
    · split at hf
      · obtain rfl := List.mem_singleton.mp hf
        rfl
      · exact absurd hf (by simp)
    · exact absurd hf (by simp)
  · unfold serverPart at hf
    split at hf
    · split at hf
      · obtain rfl := List.mem_singleton.mp hf
        rfl
      · exact absurd hf (by simp)
    · exact absurd hf (by simp)

/-! ### Concrete scenario inputs -/

/-- The empty batch and its report. -/
def emptyReport : Report :=
  { enhanced_issues := [], recommendations := [], risk_score := 0, risk_level := "low",
    severity_counts := ⟨0, 0, 0, 0⟩, urls_analyzed := 0 }

/-- The pass-through issue `{"id": "x", "severity": "critical"}`. -/
def scenarioIssue : Finding := { id := some "x", severity := some "critical" }

/-- The spec scenario batch `[{"url": "a", "issues": [scenarioIssue]}]`. -/
def scenarioBatch : List Record := [{ url := some "a", issues := some [scenarioIssue] }]

/-- The report the code produces for `scenarioBatch`. -/
def scenarioReport : Report :=
  { enhanced_issues := [scenarioIssue], recommendations := [], risk_score := 25,
    risk_level := "low", severity_counts := ⟨1, 0, 0, 0⟩, urls_analyzed := 1 }

/-- A pass-through issue with an `id` but no `severity`. -/
def noSevIssue : Finding := { id := some "x" }

/-- A batch whose single pass-through issue lacks a severity. -/
def noSevBatch : List Record := [{ url := some "a", issues := some [noSevIssue] }]

/-- The report the code produces for `noSevBatch`: the missing severity is
counted in the `low` bucket. -/
def noSevReport : Report :=
  { enhanced_issues := [noSevIssue], recommendations := [], risk_score := 1,
    risk_level := "low", severity_counts := ⟨0, 0, 0, 1⟩, urls_analyzed := 1 }

/-- A batch whose single pass-through issue lacks an `id`. -/
def missingIdBatch : List Record :=
  [{ url := some "a", issues := some [{ severity := some "high" }] }]

/-- Is an optional severity value one of the four known severities?
(`none` — a missing severity — is not.) -/
def knownSevOpt : Option String → Bool
  | some s => knownSev s
  | none => false

/-! ### Claim theorems: aggregation -/

/-- C1 (counterexample): the claim says a finding with a missing severity
is excluded from `severity_counts`, and that the counts sum to the number
of findings whose severity is one of the four known values.  On the batch
`[{"url": "a", "issues": [{"id": "x"}]}]` the code counts the
severity-less finding in the `low` bucket: the counts sum to 1 while no
finding has a known severity. -/
theorem severity_counts_missing_cex :
    analyze_scan_results noSevBatch = some noSevReport ∧
    sumSC noSevReport.severity_counts = 1 ∧
    (noSevReport.enhanced_issues.filter (fun i => knownSevOpt i.severity)).length = 0 := by
  refine ⟨by decide, by decide, by decide⟩

/-- C1 (amended): each `severity_counts` value is non-negative; a severity
string outside the four known values leaves the tally unchanged; and the
counts sum to the number of findings in `enhanced_issues` whose effective
severity (`issue.get('severity', 'low')`, i.e. missing severity defaults
to `low`) is one of the four known values. -/
theorem severity_counts_sum_amended (results : List Record) (rep : Report)
    (h : analyze_scan_results results = some rep) :
    0 ≤ rep.severity_counts.critical ∧ 0 ≤ rep.severity_counts.high ∧
    0 ≤ rep.severity_counts.medium ∧ 0 ≤ rep.severity_counts.low ∧
    (∀ (c : SevCounts) (s : String), knownSev s = false → bumpSev c s = c) ∧
    sumSC rep.severity_counts =
      (rep.enhanced_issues.filter (fun i => knownSev (i.severity.getD "low"))).length := by
  obtain ⟨he, hc, _, _, _, _⟩ := analyze_some_spec h
  refine ⟨Nat.zero_le _, Nat.zero_le _, Nat.zero_le _, Nat.zero_le _,
    fun c s hs => bumpSev_unknown c s hs, ?_⟩
  rw [hc, he, sumSC_tally]

theorem severity_counts_sum_amended_witness :
    analyze_scan_results noSevBatch = some noSevReport ∧
    sumSC noSevReport.severity_counts =
      (noSevReport.enhanced_issues.filter
        (fun i => knownSev (i.severity.getD "low"))).length :=
  ⟨by decide,
   (severity_counts_sum_amended noSevBatch noSevReport (by decide)).2.2.2.2.2⟩

/-- C2: `risk_score = min(100, critical*25 + high*10 + medium*5 + low*1)`
computed from `severity_counts`; it lies in `[0, 100]`; and it is a
deterministic function of `severity_counts` alone. -/
theorem risk_score_spec (results : List Record) (rep : Report)
    (h : analyze_scan_results results = some rep) :
    rep.risk_score = min 100 (rep.severity_counts.critical * 25 + rep.severity_counts.high * 10 +
      rep.severity_counts.medium * 5 + rep.severity_counts.low * 1) ∧
    rep.risk_score ≤ 100 ∧ 0 ≤ rep.risk_score ∧
    (∀ (results2 : List Record) (rep2 : Report), analyze_scan_results results2 = some rep2 →
      rep2.severity_counts = rep.severity_counts → rep2.risk_score = rep.risk_score) := by
  obtain ⟨_, _, hs, _, _, _⟩ := analyze_some_spec h
  refine ⟨by rw [hs]; rfl, by rw [hs]; exact Nat.min_le_left _ _, Nat.zero_le _, ?_⟩
  intro results2 rep2 h2 hceq
  obtain ⟨_, _, hs2, _, _, _⟩ := analyze_some_spec h2
  rw [hs, hs2, hceq]

theorem risk_score_spec_witness :
    analyze_scan_results scenarioBatch = some scenarioReport ∧
    scenarioReport.risk_score = min 100 (scenarioReport.severity_counts.critical * 25 +
      scenarioReport.severity_counts.high * 10 + scenarioReport.severity_counts.medium * 5 +
      scenarioReport.severity_counts.low * 1) ∧
    scenarioReport.risk_score ≤ 100 :=
  ⟨by decide, (risk_score_spec scenarioBatch scenarioReport (by decide)).1,
   (risk_score_spec scenarioBatch scenarioReport (by decide)).2.1⟩

/-- C3: `risk_level` is derived from `risk_score` by the cascade
critical (>75) / high (>50) / medium (>25) / low, with the boundary
values 76, 75, 51, 50, 26, 25 and 0 mapping as the claim lists. -/
theorem risk_level_spec (results : List Record) (rep : Report)
    (h : analyze_scan_results results = some rep) :
    rep.risk_level = (if rep.risk_score > 75 then "critical"
      else if rep.risk_score > 50 then "high"
      else if rep.risk_score > 25 then "medium" else "low") ∧
    riskLevelOf 76 = "critical" ∧ riskLevelOf 75 = "high" ∧ riskLevelOf 51 = "high" ∧
    riskLevelOf 50 = "medium" ∧ riskLevelOf 26 = "medium" ∧ riskLevelOf 25 = "low" ∧
    riskLevelOf 0 = "low" := by
  obtain ⟨_, _, _, hl, _, _⟩ := analyze_some_spec h
  exact ⟨hl, rfl, rfl, rfl, rfl, rfl, rfl, rfl⟩

theorem risk_level_spec_witness :
    analyze_scan_results ([] : List Record) = some emptyReport ∧
    emptyReport.risk_level = (if emptyReport.risk_score > 75 then "critical"
      else if emptyReport.risk_score > 50 then "high"
      else if emptyReport.risk_score > 25 then "medium" else "low") ∧
    riskLevelOf 76 = "critical" ∧ riskLevelOf 25 = "low" :=
  ⟨by decide, (risk_level_spec [] emptyReport (by decide)).1,
   (risk_level_spec [] emptyReport (by decide)).2.1,
   (risk_level_spec [] emptyReport (by decide)).2.2.2.2.2.2.1⟩

/-- C4 (counterexample): for the batch
`[{"url": "a", "issues": [{"id": "x", "severity": "critical"}]}]` the
claim says `risk_level == "medium"`, but the code's risk score 25 fails
every threshold test (`25 > 25` is false), so `risk_level` is `"low"`. -/
theorem scenario_risk_level_cex :
    (analyze_scan_results scenarioBatch).map Report.risk_level = some "low" ∧
    (some "low" : Option String) ≠ some "medium" := by
  refine ⟨by decide, by decide⟩

/-- C4 (amended): for the scenario batch, the report has
`severity_counts.critical == 1`, `risk_score == 25`,
`risk_level == "low"`, `urls_analyzed == 1`, one enhanced issue, and no
recommendations (the unknown id `"x"` yields none). -/
theorem scenario_batch_report :
    analyze_scan_results scenarioBatch = some scenarioReport ∧
    scenarioReport.severity_counts.critical = 1 ∧
    scenarioReport.risk_score = 25 ∧
    scenarioReport.risk_level = "low" ∧
    scenarioReport.urls_analyzed = 1 ∧
    scenarioReport.enhanced_issues.length = 1 ∧
    scenarioReport.recommendations = [] := by
  refine ⟨by decide, by decide, by decide, by decide, by decide, by decide, by decide⟩

/-- C8: `enhanced_issues` is the concatenation, in submission order, of
each record's contribution; within a record the pass-through issues come
first unchanged and in order, then the content findings (when `content`
is present), then the header findings (when `headers` is present). -/
theorem enhanced_issues_order (results : List Record) (rep : Report)
    (h : analyze_scan_results results = some rep) :
    rep.enhanced_issues = results.flatMap recordFindings ∧
    ∀ r : Record, recordFindings r =
      (r.issues.getD []) ++
      (match r.content with
        | some c => analyze_content (r.url.getD "") c
        | none => []) ++
      (match r.headers with
        | some hs => analyze_headers (r.url.getD "") hs
        | none => []) :=
  ⟨(analyze_some_spec h).1, fun _ => rfl⟩

theorem enhanced_issues_order_witness :
    analyze_scan_results scenarioBatch = some scenarioReport ∧
    scenarioReport.enhanced_issues = scenarioBatch.flatMap recordFindings :=
  ⟨by decide, (enhanced_issues_order scenarioBatch scenarioReport (by decide)).1⟩

/-- C9: `urls_analyzed` is the number of distinct url strings across the
batch, with a missing url defaulting to the empty string (which counts as
one distinct value) and repeated urls counted once. -/
theorem urls_analyzed_distinct (results : List Record) (rep : Report)
    (h : analyze_scan_results results = some rep) :
    rep.urls_analyzed = ((results.map (fun r => r.url.getD "")).toFinset).card := by
  have hu := (analyze_some_spec h).2.2.2.2.1
  simpa [urlOf] using hu

theorem urls_analyzed_distinct_witness :
    analyze_scan_results scenarioBatch = some scenarioReport ∧
    scenarioReport.urls_analyzed =
      ((scenarioBatch.map (fun r => r.url.getD "")).toFinset).card :=
  ⟨by decide, urls_analyzed_distinct scenarioBatch scenarioReport (by decide)⟩

/-- C10: a pass-through issue lacking `id` makes the whole analysis fail
with no report; if every pass-through issue has an `id` the analysis
returns a full report; and a missing severity is tallied as `low`. -/
theorem issue_id_mandatory (results : List Record) :
    ((∃ r ∈ results, ∃ i ∈ r.issues.getD [], i.id = none) →
      analyze_scan_results results = none) ∧
    ((∀ r ∈ results, ∀ i ∈ r.issues.getD [], i.id.isSome) →
      (analyze_scan_results results).isSome) ∧
    (∀ (c : SevCounts) (i : Finding), i.severity = none →
      bumpSev c (i.severity.getD "low") = { c with low := c.low + 1 }) := by
  refine ⟨?_, ?_, ?_⟩
  · rintro ⟨r, hr, i, hi, hid⟩
    rw [analyze_eq]
    have hmem : i ∈ results.flatMap recordFindings :=
      List.mem_flatMap.mpr ⟨r, hr, by
        unfold recordFindings
        exact List.mem_append_left _ (List.mem_append_left _ hi)⟩
    have hg : generate_recommendations (results.flatMap recordFindings) = none := by
      unfold generate_recommendations
      rw [if_neg]
      intro hall
      have hsome := List.all_eq_true.mp hall i hmem
      rw [hid] at hsome
      exact absurd hsome (by simp)
    rw [hg]
    rfl
  · intro hids
    rw [analyze_eq]
    have hall : (results.flatMap recordFindings).all (fun i => i.id.isSome) = true := by
      rw [List.all_eq_true]
      intro i hi
      obtain ⟨r, hr, hmem⟩ := List.mem_flatMap.mp hi
      unfold recordFindings at hmem
      rcases List.mem_append.mp hmem with hmem | hmem
      · rcases List.mem_append.mp hmem with hmem | hmem
        · exact hids r hr i hmem
        · cases hc : r.content with
          | some c => rw [hc] at hmem; exact analyze_content_id_isSome hmem
          | none => rw [hc] at hmem; exact absurd hmem (by simp)
      · cases hh : r.headers with
        | some hs => rw [hh] at hmem; exact analyze_headers_id_isSome hmem
        | none => rw [hh] at hmem; exact absurd hmem (by simp)
    unfold generate_recommendations
    rw [if_pos hall]
    simp
  · intro c i hs
    rw [hs]
    show bumpSev c "low" = _
    unfold bumpSev
    rw [if_neg (by decide), if_neg (by decide), if_neg (by decide), if_pos rfl]

theorem issue_id_mandatory_witness :
    analyze_scan_results missingIdBatch = none ∧
    (analyze_scan_results noSevBatch).isSome :=
  ⟨(issue_id_mandatory missingIdBatch).1 (by decide),
   (issue_id_mandatory noSevBatch).2.1 (by decide)⟩

/-! ### Claim theorems: header detector and recommendations -/

theorem mem_cookiePart {url : String} {hs : List (String × String)} {f : Finding} :
    f ∈ cookiePart url hs ↔ ∃ v, lookupHeader hs "set-cookie" = some v ∧
      (containsTok v "secure" = false ∨ containsTok v "httponly" = false) ∧
      f = cookieFinding url v := by
  cases hc : lookupHeader hs "set-cookie" with
  | none => simp [cookiePart, hc]
  | some v =>
    simp only [cookiePart, hc]
    split_ifs with h1
    · rw [Bool.or_eq_true, Bool.not_eq_eq_eq_not, Bool.not_eq_eq_eq_not, Bool.not_true] at h1
      simp only [List.mem_singleton, Option.some.injEq]
      constructor
      · rintro rfl
        exact ⟨v, rfl, h1, rfl⟩
      · rintro ⟨v2, rfl, _, hf⟩
        exact hf
    · rw [Bool.or_eq_true, Bool.not_eq_eq_eq_not, Bool.not_eq_eq_eq_not, Bool.not_true] at h1
      push_neg at h1
      simp only [List.not_mem_nil, false_iff, not_exists]
      rintro v2 ⟨heq, hcond, _⟩
      obtain rfl : v = v2 := by simpa using heq
      rcases hcond with hb | hb
      · exact h1.1 hb
      · exact h1.2 hb

theorem mem_serverPart {url : String} {hs : List (String × String)} {f : Finding} :
    f ∈ serverPart url hs ↔ ∃ v, lookupHeader hs "server" = some v ∧
      v.length > 0 ∧ f = serverFinding url v := by
  cases hc : lookupHeader hs "server" with
  | none => simp [serverPart, hc]
  | some v =>
    simp only [serverPart, hc]
    split_ifs with h1
    · simp only [List.mem_singleton, Option.some.injEq]
      constructor
      · rintro rfl
        exact ⟨v, rfl, h1, rfl⟩
      · rintro ⟨v2, rfl, _, hf⟩
        exact hf
    · simp only [List.not_mem_nil, false_iff, not_exists]
      rintro v2 ⟨heq, hlen, _⟩
      obtain rfl : v = v2 := by simpa using heq
      exact h1 hlen

/-- C6: the Header Detector emits the high-severity
`deep_insecure_cookie` finding (context = the raw header value) exactly
when a `set-cookie` header is present whose lowercased value lacks the
token `secure` or lacks `httponly`; it emits the medium-severity
`deep_server_disclosure` finding (context = the header value) exactly
when a `server` header is present and non-empty; neither finding carries
a `position`; and absent headers produce no findings and no error. -/
theorem analyze_headers_spec (url : String) (hs : List (String × String)) :
    ((∃ f ∈ analyze_headers url hs, f.id = some "deep_insecure_cookie") ↔
      (∃ v, lookupHeader hs "set-cookie" = some v ∧
        (containsTok v "secure" = false ∨ containsTok v "httponly" = false))) ∧
    (∀ f ∈ analyze_headers url hs, f.id = some "deep_insecure_cookie" →
      ∃ v, lookupHeader hs "set-cookie" = some v ∧ f = cookieFinding url v ∧
        f.severity = some "high" ∧ f.context = some v ∧ f.position = none) ∧
    ((∃ f ∈ analyze_headers url hs, f.id = some "deep_server_disclosure") ↔
      (∃ v, lookupHeader hs "server" = some v ∧ v.length > 0)) ∧
    (∀ f ∈ analyze_headers url hs, f.id = some "deep_server_disclosure" →
      ∃ v, lookupHeader hs "server" = some v ∧ f = serverFinding url v ∧
        f.severity = some "medium" ∧ f.context = some v ∧ f.position = none) ∧
    (∀ f ∈ analyze_headers url hs, f.position = none) ∧
    (lookupHeader hs "set-cookie" = none → lookupHeader hs "server" = none →
      analyze_headers url hs = []) := by
  refine ⟨?_, ?_, ?_, ?_, ?_, ?_⟩
  · constructor
    · rintro ⟨f, hf, hid⟩
      rcases List.mem_append.mp hf with hf | hf
      · obtain ⟨v, hl, hcond, rfl⟩ := mem_cookiePart.mp hf
        exact ⟨v, hl, hcond⟩
      · obtain ⟨v, hl, hlen, rfl⟩ := mem_serverPart.mp hf
        exact absurd hid (by simp [serverFinding])
    · rintro ⟨v, hl, hcond⟩
      exact ⟨cookieFinding url v,
        List.mem_append_left _ (mem_cookiePart.mpr ⟨v, hl, hcond, rfl⟩), rfl⟩
  · intro f hf hid
    rcases List.mem_append.mp hf with hf | hf
    · obtain ⟨v, hl, hcond, rfl⟩ := mem_cookiePart.mp hf
      exact ⟨v, hl, rfl, rfl, rfl, rfl⟩
    · obtain ⟨v, hl, hlen, rfl⟩ := mem_serverPart.mp hf
      exact absurd hid (by simp [serverFinding])
  · constructor
    · rintro ⟨f, hf, hid⟩
      rcases List.mem_append.mp hf with hf | hf
      · obtain ⟨v, hl, hcond, rfl⟩ := mem_cookiePart.mp hf
        exact absurd hid (by simp [cookieFinding])
      · obtain ⟨v, hl, hlen, rfl⟩ := mem_serverPart.mp hf
        exact ⟨v, hl, hlen⟩
    · rintro ⟨v, hl, hlen⟩
      exact ⟨serverFinding url v,
        List.mem_append_right _ (mem_serverPart.mpr ⟨v, hl, hlen, rfl⟩), rfl⟩
  · intro f hf hid
    rcases List.mem_append.mp hf with hf | hf
    · obtain ⟨v, hl, hcond, rfl⟩ := mem_cookiePart.mp hf
      exact absurd hid (by simp [cookieFinding])
    · obtain ⟨v, hl, hlen, rfl⟩ := mem_serverPart.mp hf
      exact ⟨v, hl, rfl, rfl, rfl, rfl⟩
  · intro f hf
    rcases List.mem_append.mp hf with hf | hf
    · obtain ⟨v, hl, hcond, rfl⟩ := mem_cookiePart.mp hf
      rfl
    · obtain ⟨v, hl, hlen, rfl⟩ := mem_serverPart.mp hf
      rfl
  · intro hcn hsn
    unfold analyze_headers cookiePart serverPart
    rw [hcn, hsn]
    rfl

theorem analyze_headers_spec_witness :
    analyze_headers "u" ([] : List (String × String)) = [] :=
  (analyze_headers_spec "u" []).2.2.2.2.2 rfl rfl

/-- C7: the recommendation list has no duplicate entries (so at most one
entry per distinct finding id), follows the fixed priority enumeration
order (it is a sublist of the 7 remediation texts in priority order), is
empty when every finding id is outside the 7 known kinds, and is
invariant under permuting the findings (discovery order is
irrelevant). -/
theorem recommendations_spec (issues : List Finding) (recs : List String)
    (h : generate_recommendations issues = some recs) :
    recs.Nodup ∧
    recs.Sublist (knownRecs.map Prod.snd) ∧
    ((∀ i ∈ issues, ∀ s, i.id = some s → s ∉ knownRecs.map Prod.fst) → recs = []) ∧
    (∀ issues2 : List Finding, issues.Perm issues2 →
      generate_recommendations issues2 = some recs) := by
  obtain ⟨hrecs, hall⟩ := gen_eq_some h
  subst hrecs
  refine ⟨buildRecs_nodup _, buildRecs_sublist _, ?_, ?_⟩
  · intro hunk
    apply buildRecs_unknown
    intro s hsmem
    obtain ⟨i, hi, hid⟩ := List.mem_filterMap.mp hsmem
    exact hunk i hi s hid
  · intro issues2 hp
    rw [gen_perm hp, h]

/-- A finding list repeating one known kind and using one unknown kind. -/
def recIssues : List Finding :=
  [{ id := some "deep_xss_vulnerability" }, { id := some "deep_sql_injection" },
   { id := some "x" }, { id := some "deep_xss_vulnerability" }]

set_option maxRecDepth 8192 in
theorem recommendations_spec_witness :
    generate_recommendations recIssues =
      some (buildRecs (recIssues.filterMap Finding.id)) ∧
    (buildRecs (recIssues.filterMap Finding.id)).Nodup ∧
    (buildRecs (recIssues.filterMap Finding.id)).Sublist (knownRecs.map Prod.snd) :=
  ⟨by decide,
   (recommendations_spec recIssues (buildRecs (recIssues.filterMap Finding.id)) (by decide)).1,
   (recommendations_spec recIssues (buildRecs (recIssues.filterMap Finding.id)) (by decide)).2.1⟩

/-! ### Claim theorem: content detector -/

/-- C5: the Content Detector finds, for each registry rule, all
non-overlapping case-insensitive matches (not just the first), and emits
per match a finding with id `deep_<kind>`, the rule severity, context
equal to the substring from 30 characters before the match start to 30
characters after the match end clamped to the text bounds and
whitespace-trimmed, and position equal to the match start; it produces
zero findings on empty or non-matching text. -/
theorem analyze_content_spec (url content : String) :
    (content = "" → analyze_content url content = []) ∧
    ((∀ kp ∈ patternList, finditer kp.2 content.data = []) →
      analyze_content url content = []) ∧
    (∀ kp ∈ patternList, ∀ m ∈ finditer kp.2 content.data,
      contentFinding url kp.1 (sevOf kp.1) content.data m ∈ analyze_content url content) ∧
    (∀ f ∈ analyze_content url content,
      ∃ kp ∈ patternList, ∃ m ∈ finditer kp.2 content.data,
        f.id = some ("deep_" ++ kp.1) ∧ f.severity = some (sevOf kp.1) ∧
        f.context = some (String.mk (pyStrip ((content.data.drop (m.1 - 30)).take
          (min content.data.length (m.2 + 30) - (m.1 - 30))))) ∧
        f.position = some m.1) ∧
    (∀ kp ∈ patternList,
      (∀ m ∈ finditer kp.2 content.data, m.1 ≤ m.2 ∧ m.2 ≤ content.data.length) ∧
      List.Pairwise (fun a b : Nat × Nat => a.2 ≤ b.1) (finditer kp.2 content.data)) ∧
    (∀ r : RE, finditer r (content.data.map lc) = finditer r content.data) := by
  have hempty : ∀ kp ∈ patternList, finditer kp.2 (String.data "") = [] := by decide
  refine ⟨?_, ?_, ?_, ?_, ?_, ?_⟩
  · rintro rfl
    apply List.flatMap_eq_nil_iff.mpr
    intro kp hkp
    rw [hempty kp hkp]
    rfl
  · intro hnil
    apply List.flatMap_eq_nil_iff.mpr
    intro kp hkp
    rw [hnil kp hkp]
    rfl
  · intro kp hkp m hm
    exact List.mem_flatMap.mpr ⟨kp, hkp, List.mem_map_of_mem _ hm⟩
  · intro f hf
    obtain ⟨kp, hkp, hf⟩ := List.mem_flatMap.mp hf
    obtain ⟨m, hm, rfl⟩ := List.mem_map.mp hf
    exact ⟨kp, hkp, m, hm, rfl, rfl, rfl, rfl⟩
  · intro kp _
    exact ⟨(finditer_spans kp.2 content.data).1, (finditer_spans kp.2 content.data).2⟩
  · exact fun r => finditer_map_lc r content.data

set_option maxRecDepth 100000 in
theorem analyze_content_spec_witness :
    (0, 4) ∈ finditer redirRe (String.data "url=") ∧
    contentFinding "u" "open_redirect" (sevOf "open_redirect") (String.data "url=") (0, 4) ∈
      analyze_content "u" "url=" :=
  ⟨by decide,
   (analyze_content_spec "u" "url=").2.2.1 ("open_redirect", redirRe)
     (by simp [patternList]) (0, 4) (by decide)⟩

end DeepAnalyzer
